import Mathlib

/-!
Shallow embedding of the user-management core of the backend:
`app/models/user.py`, `app/services/user_service.py`,
`app/services/mongodb_service.py`, `app/services/redis_cache_service.py`,
`app/utils/general_utils.py`, `app/errors/exceptions.py`.

Datetimes are modelled as natural numbers read off a strictly increasing
clock (each `datetime.utcnow()` call returns the current tick and advances
the clock; real microsecond timestamps of successive calls are strictly
increasing in the same way).  BSON ObjectIds are modelled as their 24-digit
hexadecimal string form: a string parses as an ObjectId exactly when it has
24 hex digits, and `str(ObjectId(s))` lower-cases it.  Python dicts holding
user records always carry all six fields on every path exercised here, so
they are modelled as a structure `Doc`.  Python exceptions are modelled with
`Except` / `Option`: an operation returns `(Except APIError α) × World`, the
world being returned even on the error path because side effects performed
before a `raise` persist.
-/

deriving instance DecidableEq for Except

namespace S2P

/-! ## Data model (`app/models/user.py`, `app/errors/exceptions.py`, validation) -/

/-- Python values that can sit in the `username` slot of a request dict
(the code checks `isinstance(data["username"], str)`, so non-strings must be
representable). -/
inductive Val where
  | vstr (s : String)
  | vint (n : Int)
deriving DecidableEq, Repr

/-- `app/models/user.py`: a stored user document (the dict produced by
`User.to_dict` / stored in Mongo, `_id` in its string form). -/
structure Doc where
  _id : String
  username : Val
  email : String
  created_at : Nat
  updated_at : Nat
  isDeleted : Bool
deriving DecidableEq, Repr

/-- `app/models/user.py`: the `User` dataclass. -/
structure User where
  username : Val
  email : String
  created_at : Nat
  updated_at : Nat
  _id : Option String := none
  isDeleted : Bool := false
deriving DecidableEq, Repr

/-- `app/errors/exceptions.py`: `APIError(message, status_code)`. -/
structure APIError where
  message : String
  status_code : Nat := 400
deriving DecidableEq, Repr

/-- bson: a string parses as an ObjectId iff it is 24 hex digits. -/
def isHexChar (c : Char) : Bool :=
  c.isDigit || ('a' ≤ c && c ≤ 'f') || ('A' ≤ c && c ≤ 'F')

def oidValid (s : String) : Bool :=
  s.length == 24 && s.toList.all isHexChar

/-- bson: `str(ObjectId(s))` re-serializes the 12 bytes as lowercase hex,
i.e. it lower-cases the accepted hex string. -/
def oidNorm (s : String) : String := String.mk (s.toList.map Char.toLower)

/-- A fresh `ObjectId()` in the model: the world's ObjectId counter rendered
as a (zero-padded) 24-digit lowercase hex string. -/
def natToHex24 (n : Nat) : String :=
  let ds := Nat.toDigits 16 n
  String.mk (List.replicate (24 - ds.length) '0' ++ ds)

/-- `User.from_dict` (`app/models/user.py`): `_id` is `str(data["_id"])`
(already a string here), datetimes pass through `_parse_datetime`
unchanged, `isDeleted` defaults to the stored value (always present). -/
def User.from_dict (d : Doc) : User :=
  { username := d.username, email := d.email, created_at := d.created_at,
    updated_at := d.updated_at, _id := some d._id, isDeleted := d.isDeleted }

/-- `User.to_dict` (`app/models/user.py`): `ObjectId(self._id) if self._id
else ObjectId()`.  An invalid `_id` string makes `ObjectId` raise
`InvalidId` (modelled as `Except.error ()`); `fresh` stands for the
`ObjectId()` generated when `_id` is `None`. -/
def User.to_dict (u : User) (fresh : String) : Except Unit Doc :=
  match u._id with
  | some s =>
      if oidValid s then
        .ok { _id := oidNorm s, username := u.username, email := u.email,
              created_at := u.created_at, updated_at := u.updated_at,
              isDeleted := u.isDeleted }
      else .error ()
  | none =>
      .ok { _id := fresh, username := u.username, email := u.email,
            created_at := u.created_at, updated_at := u.updated_at,
            isDeleted := u.isDeleted }

/-- `app/utils/general_utils.py`: the character class
`[a-zA-Z0-9._%+-]` of the email regex's local part. -/
def isLocalChar (c : Char) : Bool :=
  c.isAlpha || c.isDigit || c == '.' || c == '_' || c == '%' || c == '+' || c == '-'

/-- The character class `[a-zA-Z0-9.-]` of the regex's domain part. -/
def isDomainChar (c : Char) : Bool :=
  c.isAlpha || c.isDigit || c == '.' || c == '-'

/-- Split a character list at every occurrence of the separator (the
behaviour of `str.split` on a one-character separator; always a non-empty
list of groups). -/
def splitOnChar (c : Char) : List Char → List (List Char)
  | [] => [[]]
  | x :: xs =>
      let rest := splitOnChar c xs
      if x == c then [] :: rest
      else
        match rest with
        | [] => [[x]]
        | g :: gs => (x :: g) :: gs

/-- Join character-list groups with the separator between them. -/
def joinWithChar (c : Char) : List (List Char) → List Char
  | [] => []
  | [g] => g
  | g :: gs => g ++ c :: joinWithChar c gs

/-- Match of `^[a-zA-Z0-9._%+-]+@[a-zA-Z0-9.-]+\.[a-zA-Z]{2,}$` against the
whole string: no character class contains `@`, so the string splits at its
unique `@`; the final `[a-zA-Z]{2,}` contains no dot, so the `\.` before it
is the last dot of the domain. -/
def emailCore (cs : List Char) : Bool :=
  match splitOnChar '@' cs with
  | [loc, dom] =>
      decide (1 ≤ loc.length) && loc.all isLocalChar &&
      (let parts := splitOnChar '.' dom
       decide (2 ≤ parts.length) &&
       (let tld := parts.getLastD []
        let front := joinWithChar '.' parts.dropLast
        decide (1 ≤ front.length) && front.all isDomainChar &&
        decide (2 ≤ tld.length) && tld.all Char.isAlpha))
  | _ => false

/-- `validate_email` (`app/utils/general_utils.py`).  Python's `$` anchor
also matches just before one trailing newline, hence the `dropLast`. -/
def validate_email (email : String) : Bool :=
  let cs := email.toList
  emailCore (if cs.getLastD ' ' == '\n' then cs.dropLast else cs)

/-- A request dict as the user service reads it: the four keys it ever
looks at, each possibly absent. -/
structure UData where
  username : Option Val := none
  email : Option String := none
  created_at : Option Nat := none
  updated_at : Option Nat := none
deriving DecidableEq, Repr

/-- `isinstance(data["username"], str) and len(...) >= 3`. -/
def usernameOk : Val → Bool
  | .vstr s => decide (3 ≤ s.length)
  | _ => false

/-- `UserService.validate_user_data` (`app/services/user_service.py`):
`none` when validation passes, `some e` for the `APIError` raised. -/
def validate_user_data (data : UData) (is_update : Bool) : Option APIError :=
  if !is_update && !(data.username.isSome && data.email.isSome) then
    some ⟨"Missing required fields: username and email", 400⟩
  else if (match data.email with | some e => !validate_email e | none => false) then
    some ⟨"Invalid email format", 400⟩
  else if (match data.username with | some v => !usernameOk v | none => false) then
    some ⟨"Username must be a string with at least 3 characters", 400⟩
  else none

/-! ## The world: document store, cache, clock, ObjectId counter -/

/-- A value in the Redis cache once deserialized: the service caches single
user dicts (under `user:<id>`) and lists of user dicts (under `user:all:*`). -/
inductive CacheVal where
  | cdoc (d : Doc)
  | clist (l : List Doc)
deriving DecidableEq, Repr

/-- The mutable state threaded through the service: the Mongo collection
(`docs`, in insertion order), the Redis cache (an association list), the
clock (`datetime.utcnow()` reads it and advances it), and the counter from
which fresh ObjectIds are minted. -/
structure World where
  docs : List Doc
  cache : List (String × CacheVal)
  clock : Nat
  nextOid : Nat
deriving DecidableEq, Repr

def World.empty : World := ⟨[], [], 0, 0⟩

/-- `datetime.utcnow()`: the current tick, strictly increasing per call. -/
def World.utcnow (w : World) : Nat × World :=
  (w.clock, { w with clock := w.clock + 1 })

def cache_get (w : World) (key : String) : Option CacheVal :=
  (w.cache.find? (fun p => p.1 == key)).map Prod.snd

def cache_set (w : World) (key : String) (v : CacheVal) : World :=
  { w with cache := (key, v) :: w.cache.filter (fun p => p.1 != key) }

def cache_delete (w : World) (key : String) : World :=
  { w with cache := w.cache.filter (fun p => p.1 != key) }

/-- `delete_pattern`: the service only ever passes `user:all:*` — a glob
with a single trailing star, which deletes every key beginning with the
characters before the star. -/
def cache_delete_pattern (w : World) (pat : String) : World :=
  { w with cache := w.cache.filter (fun p => !(pat.toList.dropLast.isPrefixOf p.1.toList)) }

/-- The query shapes `UserService` sends: conjunction of an `_id` match, an
`_id $ne` exclusion, an `email` match and an `isDeleted` match, each
optional. -/
structure Query where
  q_id : Option String := none
  q_id_ne : Option String := none
  qemail : Option String := none
  qisDeleted : Option Bool := none
deriving DecidableEq, Repr

def Doc.matches (d : Doc) (q : Query) : Bool :=
  (match q.q_id with | none => true | some i => d._id == i) &&
  (match q.q_id_ne with | none => true | some i => d._id != i) &&
  (match q.qemail with | none => true | some e => d.email == e) &&
  (match q.qisDeleted with | none => true | some b => d.isDeleted == b)

/-- `MongoDBService.find_one`: the first matching document. -/
def db_find_one (w : World) (q : Query) : Option Doc :=
  w.docs.find? (fun d => d.matches q)

/-- `MongoDBService.find` (no sort/skip/limit on the user paths). -/
def db_find (w : World) (q : Query) : List Doc :=
  w.docs.filter (fun d => d.matches q)

/-- `MongoDBService.insert_one`: stamps `created_at` and `updated_at` to the
same `utcnow()` before inserting, returns `str(inserted_id)`. -/
def db_insert_one (w : World) (document : Doc) : String × World :=
  let (t, w) := w.utcnow
  let document := { document with created_at := t, updated_at := t }
  (document._id, { w with docs := w.docs ++ [document] })

/-- The `$set` field sets `UserService` sends to `update_one`. -/
structure SetFields where
  s_username : Option Val := none
  s_email : Option String := none
  s_created_at : Option Nat := none
  s_updated_at : Option Nat := none
  s_isDeleted : Option Bool := none
deriving DecidableEq, Repr

def Doc.applySet (d : Doc) (s : SetFields) : Doc :=
  { d with
    username := s.s_username.getD d.username,
    email := s.s_email.getD d.email,
    created_at := s.s_created_at.getD d.created_at,
    updated_at := s.s_updated_at.getD d.updated_at,
    isDeleted := s.s_isDeleted.getD d.isDeleted }

/-- Apply `$set` to the first document matching the filter; the returned
count is Mongo's `modified_count`: 1 only when the document actually
changed. -/
def updateFirst (filter : Query) (s : SetFields) : List Doc → List Doc × Nat
  | [] => ([], 0)
  | d :: ds =>
      if d.matches filter then
        let d' := d.applySet s
        (d' :: ds, if d' == d then 0 else 1)
      else
        let (ds', m) := updateFirst filter s ds
        (d :: ds', m)

structure UpdateResult where
  matched_count : Nat
  modified_count : Nat
deriving DecidableEq, Repr

/-- `MongoDBService.update_one` (`upsert` is never used by `UserService`):
merges `updated_at = utcnow()` into the `$set` regardless of any
caller-supplied value, then updates the first matching document. -/
def db_update_one (w : World) (filter : Query) (s : SetFields) : UpdateResult × World :=
  let (t, w) := w.utcnow
  let s := { s with s_updated_at := some t }
  let (docs', m) := updateFirst filter s w.docs
  let matched := if w.docs.any (fun d => d.matches filter) then 1 else 0
  (⟨matched, m⟩, { w with docs := docs' })

/-! ## `UserService` (`app/services/user_service.py`)

Each operation returns `(Except APIError α) × World`: the `APIError`
raised (validation errors arrive as `APIError`, `bson.InvalidId` is caught
and re-raised as `APIError("Invalid user ID format", 400)`), together with
the world as left behind — mutations performed before a raise persist. -/

/-- `UserService.get_user_by_id`.  The cache is consulted first under the
key `user:<user_id>` — a key that does not encode `include_deleted` — and
`ObjectId(user_id)` is only constructed on the cache-miss path.  A cached
truthy non-dict value (an impossible state under the service's own key
discipline) makes `User.from_dict` blow up, caught as a 500. -/
def get_user_by_id (w : World) (user_id : String) (include_deleted : Bool) :
    Except APIError User × World :=
  let cache_key := "user:" ++ user_id
  let fromDb : World → Except APIError User × World := fun w =>
    if oidValid user_id then
      let q : Query := { q_id := some (oidNorm user_id),
                         qisDeleted := if include_deleted then none else some false }
      match db_find_one w q with
      | none => (.error ⟨"User not found", 404⟩, w)
      | some d => (.ok (User.from_dict d), cache_set w cache_key (.cdoc d))
    else (.error ⟨"Invalid user ID format", 400⟩, w)
  match cache_get w cache_key with
  | some (.cdoc d) => (.ok (User.from_dict d), w)
  | some (.clist l) =>
      if l.isEmpty then fromDb w
      else (.error ⟨"Error fetching user: cached value is not a user dict", 500⟩, w)
  | none => fromDb w

/-- The result of `UserService.get_all_users`, with one extra observable:
whether the call returned straight from the cache (`fromCache`) or went to
the store. -/
structure GetAllResult where
  result : Except APIError (List User)
  world : World
  fromCache : Bool
deriving Repr

/-- `UserService.get_all_users`.  The cache key encodes `include_deleted`;
a cached value passes `if cached_users:` only when truthy, so a cached
empty list falls through to the store. -/
def get_all_users (w : World) (include_deleted : Bool) : GetAllResult :=
  let cache_key := "user:all:" ++ (if include_deleted then "with_deleted" else "active")
  let fromDb : World → GetAllResult := fun w =>
    let q : Query := if include_deleted then {} else { qisDeleted := some false }
    let users := db_find w q
    let w := cache_set w cache_key (.clist users)
    ⟨.ok (users.map User.from_dict), w, false⟩
  match cache_get w cache_key with
  | some (.clist l) =>
      if l.isEmpty then fromDb w
      else ⟨.ok (l.map User.from_dict), w, true⟩
  | some (.cdoc _) =>
      ⟨.error ⟨"Error fetching users: cached value is not a list", 500⟩, w, true⟩
  | none => fromDb w

/-- `UserService.create_user`.  Validation runs first; the duplicate-email
check queries the store (never the cache); `User(**user_data)` runs one
`utcnow()` default per missing timestamp field (in field order); `to_dict`
mints a fresh `ObjectId()` since `_id` is `None`; `insert_one` then
re-stamps both timestamps on the stored dict, while the returned `User`
object keeps its construction-time values.  Only the `user:all:*` cache
keys are invalidated.  The two `.error ⟨"Error creating user", 500⟩`
fallbacks are unreachable: validation has ensured both keys are present. -/
def create_user (w : World) (user_data : UData) : Except APIError User × World :=
  match validate_user_data user_data false with
  | some e => (.error e, w)
  | none =>
  match user_data.email with
  | none => (.error ⟨"Error creating user", 500⟩, w)
  | some em =>
    if (db_find_one w { qemail := some em, qisDeleted := some false }).isSome then
      (.error ⟨"Email already exists", 400⟩, w)
    else
      match user_data.username with
      | none => (.error ⟨"Error creating user", 500⟩, w)
      | some un =>
        let (t_c, w) := match user_data.created_at with
                        | some t => (t, w)
                        | none => w.utcnow
        let (t_u, w) := match user_data.updated_at with
                        | some t => (t, w)
                        | none => w.utcnow
        let user : User := ⟨un, em, t_c, t_u, none, false⟩
        let oid := natToHex24 w.nextOid
        let w := { w with nextOid := w.nextOid + 1 }
        let user_dict : Doc := ⟨oid, un, em, t_c, t_u, false⟩
        let (user_id, w) := db_insert_one w user_dict
        let user := { user with _id := some user_id }
        let w := cache_delete_pattern w "user:all:*"
        (.ok user, w)

/-- `UserService._invalidate_user_cache`. -/
def invalidate_user_cache (w : World) (user_id : String) : World :=
  cache_delete_pattern (cache_delete w ("user:" ++ user_id)) "user:all:*"

/-- `UserService.update_user`.  `ObjectId(user_id)` is constructed inside
the email-uniqueness check and again for the update filter, so an invalid
id that slipped past `get_user_by_id` through the cache is caught at
whichever of those is reached first.  `updated_at` is stamped into the data
before `update_one` (which re-stamps it again), and zero `modified_count`
raises `Failed to update user`. -/
def update_user (w : World) (user_id : String) (user_data : UData) :
    Except APIError User × World :=
  match validate_user_data user_data true with
  | some e => (.error e, w)
  | none =>
  match get_user_by_id w user_id false with
  | (.error e, w) => (.error e, w)
  | (.ok current_user, w) =>
    let dup : Option (Except APIError User × World) :=
      match user_data.email with
      | some em =>
          if em != current_user.email then
            if oidValid user_id then
              if (db_find_one w { qemail := some em, q_id_ne := some (oidNorm user_id),
                                  qisDeleted := some false }).isSome then
                some (.error ⟨"Email already exists", 400⟩, w)
              else none
            else some (.error ⟨"Invalid user ID format", 400⟩, w)
          else none
      | none => none
    match dup with
    | some r => r
    | none =>
      if oidValid user_id then
        let (t, w) := w.utcnow
        let user_data := { user_data with updated_at := some t }
        let s : SetFields := { s_username := user_data.username,
                               s_email := user_data.email,
                               s_created_at := user_data.created_at,
                               s_updated_at := user_data.updated_at }
        let (result, w) := db_update_one w
          { q_id := some (oidNorm user_id), qisDeleted := some false } s
        if result.modified_count == 0 then
          (.error ⟨"Failed to update user", 400⟩, w)
        else
          let w := invalidate_user_cache w user_id
          get_user_by_id w user_id false
      else (.error ⟨"Invalid user ID format", 400⟩, w)

/-- `UserService.delete_user`: unconditional lookup (deleted included),
`404` when absent, `400` when already deleted, otherwise a soft delete via
`update_one({_id, isDeleted: false}, {$set: {isDeleted: true, updated_at:
utcnow()}})` followed by cache invalidation. -/
def delete_user (w : World) (user_id : String) : Except APIError Unit × World :=
  if oidValid user_id then
    match db_find_one w { q_id := some (oidNorm user_id) } with
    | none => (.error ⟨"User with this ID does not exist", 404⟩, w)
    | some user =>
      if user.isDeleted then (.error ⟨"User is already deleted", 400⟩, w)
      else
        let (t0, w) := w.utcnow
        let (result, w) := db_update_one w
          { q_id := some (oidNorm user_id), qisDeleted := some false }
          { s_isDeleted := some true, s_updated_at := some t0 }
        if result.modified_count == 0 then
          (.error ⟨"Failed to delete user", 400⟩, w)
        else (.ok (), invalidate_user_cache w user_id)
  else (.error ⟨"Invalid user ID format", 400⟩, w)

/-- `UserService.restore_user`: mirror of `delete_user`, ending with a
re-read through `get_user_by_id(user_id, include_deleted=True)`. -/
def restore_user (w : World) (user_id : String) : Except APIError User × World :=
  if oidValid user_id then
    match db_find_one w { q_id := some (oidNorm user_id) } with
    | none => (.error ⟨"User with this ID does not exist", 404⟩, w)
    | some user =>
      if !user.isDeleted then (.error ⟨"User is not deleted", 400⟩, w)
      else
        let (t0, w) := w.utcnow
        let (result, w) := db_update_one w
          { q_id := some (oidNorm user_id), qisDeleted := some true }
          { s_isDeleted := some false, s_updated_at := some t0 }
        if result.modified_count == 0 then
          (.error ⟨"Failed to restore user", 400⟩, w)
        else
          let w := invalidate_user_cache w user_id
          get_user_by_id w user_id true
  else (.error ⟨"Invalid user ID format", 400⟩, w)

/-! ## `RedisCacheService` failure handling
(`app/services/redis_cache_service.py`)

Here the adapter itself is modelled, fallible parts and all.  The
underlying client calls (`redis.get`, `redis.setex`) and the JSON codec
(`json.loads` / `json.dumps`, which raise on bad input) are oracles: each
is an arbitrary `Except`-valued function, `Except.error` standing for the
exception it may raise.  An uninitialized client
(`_initialize_redis_client` returned `None`) is `Option.none`. -/

/-- A deserialized cached value as far as C6 cares; its shape is irrelevant
to the adapter's control flow. -/
structure RVal where
  payload : String
deriving DecidableEq, Repr

/-- The live Redis client's operations, as oracles. -/
structure RedisClientOps where
  rget : String → Except Unit (Option String)
  rsetex : String → Nat → String → Except Unit Unit

/-- `RedisCacheService.get`: `None` for an uninitialized client; the try
block wraps both the client call and `_deserialize`, and its
`except Exception` returns `None`. -/
def RedisCacheService.get (client : Option RedisClientOps)
    (deser : String → Except Unit RVal) (key : String) :
    Except Unit (Option RVal) :=
  match client with
  | none => .ok none
  | some c =>
      match c.rget key with
      | .error _ => .ok none
      | .ok none => .ok none
      | .ok (some data) =>
          match deser data with
          | .error _ => .ok none
          | .ok v => .ok (some v)

/-- `RedisCacheService.set`: `False` for an uninitialized client; the try
block wraps `_serialize` (which raises `ValueError` on unserializable
values) and `setex`, and its `except Exception` returns `False`; `True`
only after `setex` succeeded. -/
def RedisCacheService.set (client : Option RedisClientOps)
    (ser : RVal → Except Unit String) (key : String) (value : RVal)
    (expire : Nat) : Except Unit Bool :=
  match client with
  | none => .ok false
  | some c =>
      match ser value with
      | .error _ => .ok false
      | .ok sv =>
          match c.rsetex key expire sv with
          | .error _ => .ok false
          | .ok _ => .ok true

/-- `Except` result carries a value (the call returned rather than raised). -/
def exceptOk {ε α : Type} : Except ε α → Bool
  | .ok _ => true
  | .error _ => false

/-! ## Spec-side predicates, invariant, step relations -/

/-- Spec-side predicate: both required keys present (create mode). -/
def requiredPresent (data : UData) : Bool := data.username.isSome && data.email.isSome

/-- Spec-side predicate: the email field, when present, matches the pattern. -/
def emailFieldOk (data : UData) : Bool :=
  match data.email with | some e => validate_email e | none => true

/-- Spec-side predicate: the username field, when present, is a string of
length at least 3. -/
def usernameFieldOk (data : UData) : Bool :=
  match data.username with | some v => usernameOk v | none => true

/-- The document a successful `create_user` leaves in the store: fresh
ObjectId, both timestamps stamped by `insert_one` at `clock + 2` (the two
construction-time `utcnow()` defaults have already consumed `clock` and
`clock + 1`). -/
def createdDoc (w : World) (un : Val) (em : String) : Doc :=
  { _id := natToHex24 w.nextOid, username := un, email := em,
    created_at := w.clock + 2, updated_at := w.clock + 2, isDeleted := false }

/-- The world a successful `create_user` leaves behind. -/
def createdWorld (w : World) (un : Val) (em : String) : World :=
  cache_delete_pattern
    { w with docs := w.docs ++ [createdDoc w un em],
             clock := w.clock + 3, nextOid := w.nextOid + 1 } "user:all:*"

/-- The record-level invariant of claim C7, strengthened with the clock
bound that makes it inductive: every stored stamp is in the past. -/
def DocsOk (w : World) : Prop :=
  ∀ d ∈ w.docs, d.created_at ≤ d.updated_at ∧ d.updated_at < w.clock

/-- One service call, with any argument the HTTP layer can hand over —
including update data carrying a `created_at` key, which
`validate_user_data` does not reject. -/
inductive Step : World → World → Prop where
  | create (w : World) (data : UData) : Step w (create_user w data).2
  | update (w : World) (uid : String) (data : UData) : Step w (update_user w uid data).2
  | delete (w : World) (uid : String) : Step w (delete_user w uid).2
  | restore (w : World) (uid : String) : Step w (restore_user w uid).2
  | getById (w : World) (uid : String) (b : Bool) : Step w (get_user_by_id w uid b).2
  | getAll (w : World) (b : Bool) : Step w (get_all_users w b).world

/-- The same step relation, restricted to update data without a
`created_at` key (the restriction the amended C7 needs). -/
inductive StepTame : World → World → Prop where
  | create (w : World) (data : UData) : StepTame w (create_user w data).2
  | update (w : World) (uid : String) (data : UData) (h : data.created_at = none) :
      StepTame w (update_user w uid data).2
  | delete (w : World) (uid : String) : StepTame w (delete_user w uid).2
  | restore (w : World) (uid : String) : StepTame w (restore_user w uid).2
  | getById (w : World) (uid : String) (b : Bool) : StepTame w (get_user_by_id w uid b).2
  | getAll (w : World) (b : Bool) : StepTame w (get_all_users w b).world

/-! ## Fixture values for witnesses and counterexamples -/

def oid0 : String := "000000000000000000000000"

def data0 : UData := { username := some (.vstr "alice"), email := some "alice@example.com" }

def dAlice : Doc := { _id := oid0, username := .vstr "alice", email := "a@b.co",
                      created_at := 0, updated_at := 0, isDeleted := false }

def dGone : Doc := { dAlice with isDeleted := true }

def wAct : World := { docs := [dAlice], cache := [], clock := 5, nextOid := 1 }

def wDel : World := { docs := [dGone], cache := [], clock := 5, nextOid := 1 }

def uLow : User := { username := .vstr "alice", email := "a@b.co", created_at := 0,
                     updated_at := 0, _id := some "abcdef0123456789abcdef01" }

def uUp : User := { username := .vstr "alice", email := "a@b.co", created_at := 0,
                    updated_at := 0, _id := some "ABCDEF0123456789ABCDEF01" }

/-- The world after create-then-update-with-created_at: the stored record
has `created_at = 999` but `updated_at = 4`. -/
def wBad : World :=
  (update_user (create_user World.empty data0).2 oid0 { created_at := some 999 }).2

/-! ## Helper lemmas -/

theorem cache_get_set_self (w : World) (k : String) (v : CacheVal) :
    cache_get (cache_set w k v) k = some v := by
  simp [cache_get, cache_set]

theorem find?_key_none_filter {l : List (String × CacheVal)} {k : String}
    (f : String × CacheVal → Bool)
    (h : l.find? (fun p => p.1 == k) = none) :
    (l.filter f).find? (fun p => p.1 == k) = none := by
  rw [List.find?_eq_none] at h ⊢
  intro x hx
  exact h x (List.mem_of_mem_filter hx)

theorem cache_get_delete_pattern_of_none {w : World} {k : String} (pat : String)
    (h : cache_get w k = none) :
    cache_get (cache_delete_pattern w pat) k = none := by
  simp only [cache_get, cache_delete_pattern] at h ⊢
  rw [Option.map_eq_none'] at h ⊢
  exact find?_key_none_filter _ h

theorem cache_get_invalidate_self (w : World) (uid : String) :
    cache_get (invalidate_user_cache w uid) ("user:" ++ uid) = none := by
  simp only [invalidate_user_cache]
  apply cache_get_delete_pattern_of_none
  simp only [cache_get, cache_delete]
  rw [Option.map_eq_none', List.find?_eq_none]
  intro x hx
  have := (List.mem_filter.mp hx).2
  simpa using this

/-- `find?` success splits the list at the first hit. -/
theorem find?_split {α : Type} {p : α → Bool} {l : List α} {d : α}
    (h : l.find? p = some d) :
    ∃ pre post, l = pre ++ d :: post ∧ ∀ x ∈ pre, p x = false := by
  induction l with
  | nil => simp [List.find?] at h
  | cons a as ih =>
    by_cases ha : p a
    · rw [List.find?_cons_of_pos _ ha] at h
      injection h with h
      subst h
      exact ⟨[], as, rfl, by simp⟩
    · rw [List.find?_cons_of_neg _ ha] at h
      obtain ⟨pre, post, rfl, hpre⟩ := ih h
      exact ⟨a :: pre, post, rfl, by
        intro x hx
        rcases List.mem_cons.mp hx with rfl | hx
        · simpa using ha
        · exact hpre x hx⟩

theorem find?_append_first {α : Type} {p : α → Bool} {pre post : List α} {d : α}
    (hpre : ∀ x ∈ pre, p x = false) (hd : p d = true) :
    (pre ++ d :: post).find? p = some d := by
  induction pre with
  | nil => simpa using List.find?_cons_of_pos _ hd
  | cons a as ih =>
    rw [List.cons_append, List.find?_cons_of_neg]
    · exact ih (fun x hx => hpre x (List.mem_cons_of_mem _ hx))
    · simp [hpre a (List.mem_cons_self _ _)]

theorem updateFirst_append {q : Query} {s : SetFields} {pre post : List Doc} {d : Doc}
    (hpre : ∀ x ∈ pre, x.matches q = false) (hd : d.matches q = true) :
    updateFirst q s (pre ++ d :: post) =
      (pre ++ d.applySet s :: post, if d.applySet s == d then 0 else 1) := by
  induction pre with
  | nil => simp [updateFirst, hd]
  | cons a as ih =>
    have ha : a.matches q = false := hpre a (List.mem_cons_self _ _)
    have ih' := ih (fun x hx => hpre x (List.mem_cons_of_mem _ hx))
    simp only [List.cons_append, updateFirst, ha, Bool.false_eq_true, if_false,
      List.append_eq] at ih' ⊢
    rw [ih']

/-- Cache hit: any cached user dict is returned as-is, whatever the flag. -/
theorem get_user_by_id_cache_hit {w : World} {uid : String} {d : Doc} (b : Bool)
    (hc : cache_get w ("user:" ++ uid) = some (.cdoc d)) :
    get_user_by_id w uid b = (.ok (User.from_dict d), w) := by
  simp only [get_user_by_id, hc]

/-- Cache miss, store hit: the record is returned and cached under
`user:<id>`. -/
theorem get_user_by_id_db_hit {w : World} {uid : String} {d : Doc} {b : Bool}
    (huid : oidValid uid = true)
    (hc : cache_get w ("user:" ++ uid) = none)
    (hdb : db_find_one w
      { q_id := some (oidNorm uid), qisDeleted := if b then none else some false } = some d) :
    get_user_by_id w uid b =
      (.ok (User.from_dict d), cache_set w ("user:" ++ uid) (.cdoc d)) := by
  simp only [get_user_by_id, hc, huid, if_true, hdb]

/-- Cache miss, store miss: 404. -/
theorem get_user_by_id_db_miss {w : World} {uid : String} {b : Bool}
    (huid : oidValid uid = true)
    (hc : cache_get w ("user:" ++ uid) = none)
    (hdb : db_find_one w
      { q_id := some (oidNorm uid), qisDeleted := if b then none else some false } = none) :
    get_user_by_id w uid b = (.error ⟨"User not found", 404⟩, w) := by
  simp only [get_user_by_id, hc, huid, if_true, hdb]

@[simp] theorem cache_set_docs (w : World) (k : String) (v : CacheVal) :
    (cache_set w k v).docs = w.docs := rfl

@[simp] theorem cache_set_clock (w : World) (k : String) (v : CacheVal) :
    (cache_set w k v).clock = w.clock := rfl

@[simp] theorem invalidate_docs (w : World) (uid : String) :
    (invalidate_user_cache w uid).docs = w.docs := rfl

@[simp] theorem invalidate_clock (w : World) (uid : String) :
    (invalidate_user_cache w uid).clock = w.clock := rfl

@[simp] theorem cache_delete_pattern_docs (w : World) (pat : String) :
    (cache_delete_pattern w pat).docs = w.docs := rfl

@[simp] theorem utcnow_fst (w : World) : w.utcnow.1 = w.clock := rfl

@[simp] theorem utcnow_snd_docs (w : World) : w.utcnow.2.docs = w.docs := rfl

@[simp] theorem utcnow_snd_clock (w : World) : w.utcnow.2.clock = w.clock + 1 := rfl

/-- Evaluation of `update_one` when the first document matching the filter
is `d`, at a given decomposition of the collection: the `$set` is
re-stamped with the current clock, `d` is replaced in place, and
`modified_count` is 1 exactly when the stamped `$set` changes `d`. -/
theorem db_update_one_eval {w : World} {q : Query} {s : SetFields} {d : Doc}
    {pre post : List Doc}
    (hw : w.docs = pre ++ d :: post)
    (hpre : ∀ x ∈ pre, x.matches q = false)
    (hd : d.matches q = true) :
    db_update_one w q s =
      (⟨1, if d.applySet { s with s_updated_at := some w.clock } == d then 0 else 1⟩,
       { w with clock := w.clock + 1,
                docs := pre ++ d.applySet { s with s_updated_at := some w.clock } :: post }) := by
  simp only [db_update_one, utcnow_fst]
  rw [show w.utcnow.2.docs = pre ++ d :: post from by rw [utcnow_snd_docs, hw]]
  rw [updateFirst_append hpre hd]
  have hany2 : ((pre ++ d :: post).any fun x => x.matches q) = true := by
    rw [List.any_eq_true]
    exact ⟨d, List.mem_append_right _ (List.mem_cons_self _ _), hd⟩
  simp only [hany2, if_true]
  rfl

theorem matches_id_strengthen {x : Doc} {i : String} {b : Bool}
    (h : x.matches { q_id := some i } = false) :
    x.matches { q_id := some i, qisDeleted := some b } = false := by
  simp [Doc.matches] at h ⊢
  simp [h]

theorem get_user_by_id_world (w : World) (uid : String) (b : Bool) :
    (get_user_by_id w uid b).2.docs = w.docs ∧ (get_user_by_id w uid b).2.clock = w.clock := by
  simp only [get_user_by_id]
  split
  · exact ⟨rfl, rfl⟩
  · split
    · split
      · split <;> exact ⟨rfl, rfl⟩
      · exact ⟨rfl, rfl⟩
    · exact ⟨rfl, rfl⟩
  · split
    · split <;> exact ⟨rfl, rfl⟩
    · exact ⟨rfl, rfl⟩

theorem get_all_users_world (w : World) (b : Bool) :
    (get_all_users w b).world.docs = w.docs ∧ (get_all_users w b).world.clock = w.clock := by
  simp only [get_all_users]
  split
  · split <;> exact ⟨rfl, rfl⟩
  · exact ⟨rfl, rfl⟩
  · exact ⟨rfl, rfl⟩

theorem DocsOk.transport {w w' : World} (h : DocsOk w) (hd : w'.docs = w.docs)
    (hc : w.clock ≤ w'.clock) : DocsOk w' := by
  intro d hdm
  obtain ⟨h1, h2⟩ := h d (hd ▸ hdm)
  exact ⟨h1, lt_of_lt_of_le h2 hc⟩

theorem updateFirst_mem {q : Query} {s : SetFields} :
    ∀ {l : List Doc} {x : Doc}, x ∈ (updateFirst q s l).1 →
      x ∈ l ∨ ∃ d, d ∈ l ∧ x = d.applySet s := by
  intro l
  induction l with
  | nil => intro x h; simp [updateFirst] at h
  | cons a as ih =>
    intro x h
    by_cases ha : a.matches q
    · simp only [updateFirst, ha, if_true] at h
      rcases List.mem_cons.mp h with rfl | hmem
      · exact Or.inr ⟨a, List.mem_cons_self _ _, rfl⟩
      · exact Or.inl (List.mem_cons_of_mem _ hmem)
    · simp only [updateFirst, ha, Bool.false_eq_true, if_false] at h
      rcases List.mem_cons.mp h with rfl | hmem
      · exact Or.inl (List.mem_cons_self _ _)
      · rcases ih hmem with h2 | ⟨d, hd, rfl⟩
        · exact Or.inl (List.mem_cons_of_mem _ h2)
        · exact Or.inr ⟨d, List.mem_cons_of_mem _ hd, rfl⟩

theorem DocsOk_insert {w : World} (h : DocsOk w) (d : Doc) :
    DocsOk (db_insert_one w d).2 := by
  intro x hx
  have hdocs : (db_insert_one w d).2.docs =
      w.docs ++ [{ d with created_at := w.clock, updated_at := w.clock }] := rfl
  have hclock : (db_insert_one w d).2.clock = w.clock + 1 := rfl
  rw [hdocs] at hx
  rw [hclock]
  rcases List.mem_append.mp hx with hx | hx
  · obtain ⟨h1, h2⟩ := h x hx
    exact ⟨h1, Nat.lt_succ_of_lt h2⟩
  · simp only [List.mem_singleton] at hx
    subst hx
    exact ⟨le_refl _, Nat.lt_succ_self _⟩

theorem DocsOk_update {w : World} {q : Query} {s : SetFields}
    (hs : s.s_created_at = none) (h : DocsOk w) :
    DocsOk (db_update_one w q s).2 := by
  intro x hx
  have hdocs : (db_update_one w q s).2.docs =
      (updateFirst q { s with s_updated_at := some w.clock } w.docs).1 := rfl
  have hclock : (db_update_one w q s).2.clock = w.clock + 1 := rfl
  rw [hdocs] at hx
  rw [hclock]
  rcases updateFirst_mem hx with hmem | ⟨d, hd, rfl⟩
  · obtain ⟨h1, h2⟩ := h x hmem
    exact ⟨h1, Nat.lt_succ_of_lt h2⟩
  · obtain ⟨h1, h2⟩ := h d hd
    constructor
    · show (Doc.applySet d _).created_at ≤ (Doc.applySet d _).updated_at
      simp [Doc.applySet, hs]
      exact le_of_lt (lt_of_le_of_lt h1 h2)
    · show (Doc.applySet d _).updated_at < w.clock + 1
      simp [Doc.applySet]

theorem DocsOk_get_user_by_id {w : World} (h : DocsOk w) (uid : String) (b : Bool) :
    DocsOk (get_user_by_id w uid b).2 :=
  h.transport (get_user_by_id_world w uid b).1 (le_of_eq (get_user_by_id_world w uid b).2.symm)

theorem DocsOk_get_all_users {w : World} (h : DocsOk w) (b : Bool) :
    DocsOk (get_all_users w b).world :=
  h.transport (get_all_users_world w b).1 (le_of_eq (get_all_users_world w b).2.symm)

theorem DocsOk_cache_delete_pattern {w : World} (h : DocsOk w) (pat : String) :
    DocsOk (cache_delete_pattern w pat) :=
  h.transport rfl (le_refl _)

theorem DocsOk_create {w : World} {data : UData} (h : DocsOk w) :
    DocsOk (create_user w data).2 := by
  unfold create_user
  split
  · exact h
  split
  · exact h
  split
  · exact h
  split
  · exact h
  cases hc : data.created_at <;> cases hu : data.updated_at <;>
    simp only [hc, hu, World.utcnow] <;>
    refine DocsOk_cache_delete_pattern (DocsOk_insert (h.transport ?_ ?_) _) _ <;>
      first | rfl | (dsimp only; omega)

theorem DocsOk_invalidate {w : World} (h : DocsOk w) (uid : String) :
    DocsOk (invalidate_user_cache w uid) :=
  h.transport rfl (le_refl _)

theorem DocsOk_delete {w : World} (h : DocsOk w) (uid : String) :
    DocsOk (delete_user w uid).2 := by
  unfold delete_user
  split
  · split
    · exact h
    · split
      · exact h
      · simp only [World.utcnow]
        have hb : DocsOk { w with clock := w.clock + 1 } :=
          h.transport rfl (by dsimp only; omega)
        have h2 := DocsOk_update (q := { q_id := some (oidNorm uid), qisDeleted := some false })
          (s := { s_isDeleted := some true, s_updated_at := some w.clock }) rfl hb
        split
        · exact h2
        · exact DocsOk_invalidate h2 uid
  · exact h

theorem DocsOk_restore {w : World} (h : DocsOk w) (uid : String) :
    DocsOk (restore_user w uid).2 := by
  unfold restore_user
  split
  · split
    · exact h
    · split
      · exact h
      · simp only [World.utcnow]
        have hb : DocsOk { w with clock := w.clock + 1 } :=
          h.transport rfl (by dsimp only; omega)
        have h2 := DocsOk_update (q := { q_id := some (oidNorm uid), qisDeleted := some true })
          (s := { s_isDeleted := some false, s_updated_at := some w.clock }) rfl hb
        split
        · exact h2
        · exact DocsOk_get_user_by_id (DocsOk_invalidate h2 uid) uid true
  · exact h

theorem DocsOk_update_user {w : World} {uid : String} {data : UData}
    (hdata : data.created_at = none) (h : DocsOk w) :
    DocsOk (update_user w uid data).2 := by
  unfold update_user
  split
  · exact h
  split
  next e w2 heq2 =>
    have hg := DocsOk_get_user_by_id h uid false
    rw [heq2] at hg
    exact hg
  next u w2 heq2 =>
    have hw2 : DocsOk w2 := by
      have hg := DocsOk_get_user_by_id h uid false
      rw [heq2] at hg
      exact hg
    simp only [World.utcnow]
    have hbase : DocsOk { w2 with clock := w2.clock + 1 } :=
      hw2.transport rfl (by dsimp only; omega)
    have hupd := DocsOk_update
      (q := { q_id := some (oidNorm uid), qisDeleted := some false })
      (s := { s_username := data.username, s_email := data.email,
              s_created_at := data.created_at, s_updated_at := some w2.clock })
      hdata hbase
    split
    next r heqr =>
      have hr2 : r.2 = w2 := by
        rcases hE : data.email with _ | em <;> rw [hE] at heqr
        · exact absurd heqr (by simp)
        · repeat' split at heqr
          all_goals
            first
              | (obtain rfl := Option.some.inj heqr; rfl)
              | exact absurd heqr (by simp)
      rw [hr2]
      exact hw2
    next heqr =>
      split
      · split
        · exact hupd
        · exact DocsOk_get_user_by_id (DocsOk_invalidate hupd uid) uid false
      · exact hw2

theorem StepTame_DocsOk {w w' : World} (hs : StepTame w w') (h : DocsOk w) : DocsOk w' := by
  cases hs with
  | create data => exact DocsOk_create h
  | update uid data hc => exact DocsOk_update_user hc h
  | delete uid => exact DocsOk_delete h uid
  | restore uid => exact DocsOk_restore h uid
  | getById uid b => exact DocsOk_get_user_by_id h uid b
  | getAll b => exact DocsOk_get_all_users h b

/-! ## Claim theorems -/

/-- C1: `get_user_by_id` keys the cache by user id alone, not by the
`include_deleted` flag: fetching a deleted record with
`include_deleted = true` caches it under `user:<id>`, and every subsequent
call for that id — with either flag, in particular `include_deleted =
false` — answers from that cache entry, returning the record with
`isDeleted = true`. -/
theorem C1_cache_key_ignores_deleted_flag (w : World) (uid : String) (d : Doc)
    (huid : oidValid uid = true)
    (hc : cache_get w ("user:" ++ uid) = none)
    (hdb : db_find_one w { q_id := some (oidNorm uid) } = some d)
    (hdel : d.isDeleted = true) :
    get_user_by_id w uid true =
      (.ok (User.from_dict d), cache_set w ("user:" ++ uid) (.cdoc d)) ∧
    (∀ b, get_user_by_id (cache_set w ("user:" ++ uid) (.cdoc d)) uid b =
      (.ok (User.from_dict d), cache_set w ("user:" ++ uid) (.cdoc d))) ∧
    (User.from_dict d).isDeleted = true := by
  refine ⟨get_user_by_id_db_hit huid hc hdb, ?_, hdel⟩
  intro b
  exact get_user_by_id_cache_hit b (cache_get_set_self ..)

theorem C1_witness :
    get_user_by_id wDel oid0 true =
      (.ok (User.from_dict dGone), cache_set wDel ("user:" ++ oid0) (.cdoc dGone)) ∧
    (∀ b, get_user_by_id (cache_set wDel ("user:" ++ oid0) (.cdoc dGone)) oid0 b =
      (.ok (User.from_dict dGone), cache_set wDel ("user:" ++ oid0) (.cdoc dGone))) ∧
    (User.from_dict dGone).isDeleted = true :=
  C1_cache_key_ignores_deleted_flag wDel oid0 dGone (by decide) (by decide)
    (by decide) (by decide)

/-- C2 as frozen is false: validation runs before the duplicate-email
check, so a duplicate email combined with an invalid username fails with
the username validation error, not with `Email already exists`. -/
theorem C2_counterexample :
    (∃ d ∈ wAct.docs, d.email = "a@b.co" ∧ d.isDeleted = false) ∧
    create_user wAct { username := some (.vstr "ab"), email := some "a@b.co" } =
      (.error ⟨"Username must be a string with at least 3 characters", 400⟩, wAct) := by
  constructor
  · exact ⟨dAlice, by decide, rfl, rfl⟩
  · decide

/-- C2 amended: for input data that passes validation, an email belonging
to a non-deleted stored user makes `create_user` fail with
`Email already exists` (status 400) via a store lookup, leaving the world —
store and cache — untouched. -/
theorem C2_duplicate_email_rejected (w : World) (data : UData) (em : String)
    (hval : validate_user_data data false = none)
    (hem : data.email = some em)
    (hex : ∃ d ∈ w.docs, d.email = em ∧ d.isDeleted = false) :
    create_user w data = (.error ⟨"Email already exists", 400⟩, w) := by
  obtain ⟨d, hd, he, hdel⟩ := hex
  have hsome : (db_find_one w { qemail := some em, qisDeleted := some false }).isSome = true := by
    rw [db_find_one, List.find?_isSome]
    exact ⟨d, hd, by simp [Doc.matches, he, hdel]⟩
  simp only [create_user, hval, hem, hsome, if_true]

theorem C2_witness :
    create_user wAct { username := some (.vstr "bob"), email := some "a@b.co" } =
      (.error ⟨"Email already exists", 400⟩, wAct) :=
  C2_duplicate_email_rejected wAct _ "a@b.co" (by decide) rfl
    ⟨dAlice, by decide, rfl, rfl⟩

/-- C3 amended: a valid create on a fresh email succeeds and the record is
retrievable under the store-assigned id with identical `username`, `email`
and `isDeleted = false`; but the stored record carries the insert-time
stamps (`clock + 2`), while the `User` returned by `create_user` keeps its
construction-time defaults (`clock`, `clock + 1`), so the two differ on
`created_at` and `updated_at`. -/
theorem C3_create_then_get (w : World) (un : Val) (em : String)
    (hval : validate_user_data { username := some un, email := some em } false = none)
    (hdup : db_find_one w { qemail := some em, qisDeleted := some false } = none)
    (hoid : oidValid (natToHex24 w.nextOid) = true)
    (hnorm : oidNorm (natToHex24 w.nextOid) = natToHex24 w.nextOid)
    (hcache : cache_get w ("user:" ++ natToHex24 w.nextOid) = none)
    (hfresh : ∀ x ∈ w.docs, (x._id == natToHex24 w.nextOid) = false) :
    create_user w { username := some un, email := some em } =
      (.ok { username := un, email := em, created_at := w.clock,
             updated_at := w.clock + 1, _id := some (natToHex24 w.nextOid),
             isDeleted := false }, createdWorld w un em) ∧
    (createdWorld w un em).docs = w.docs ++ [createdDoc w un em] ∧
    (get_user_by_id (createdWorld w un em) (natToHex24 w.nextOid) false).1 =
      .ok { username := un, email := em, created_at := w.clock + 2,
            updated_at := w.clock + 2, _id := some (natToHex24 w.nextOid),
            isDeleted := false } := by
  have hdupb : (db_find_one w { qemail := some em, qisDeleted := some false }).isSome = false := by
    rw [hdup]; rfl
  have hC : create_user w { username := some un, email := some em } =
      (.ok { username := un, email := em, created_at := w.clock,
             updated_at := w.clock + 1, _id := some (natToHex24 w.nextOid),
             isDeleted := false }, createdWorld w un em) := by
    simp only [create_user, hval, hdupb, Bool.false_eq_true, if_false]
    rfl
  have hdoc1 : (createdDoc w un em).matches
      { q_id := some (oidNorm (natToHex24 w.nextOid)), qisDeleted := some false } = true := by
    simp [Doc.matches, hnorm, createdDoc]
  have hpre3 : ∀ x ∈ w.docs, x.matches
      { q_id := some (oidNorm (natToHex24 w.nextOid)), qisDeleted := some false } = false := by
    intro x hx
    simp [Doc.matches, hnorm, hfresh x hx]
  have hc3 : cache_get (createdWorld w un em) ("user:" ++ natToHex24 w.nextOid) = none :=
    cache_get_delete_pattern_of_none _ hcache
  have hdb3 : db_find_one (createdWorld w un em)
      { q_id := some (oidNorm (natToHex24 w.nextOid)), qisDeleted := some false } =
      some (createdDoc w un em) := by
    show List.find? _ (w.docs ++ [createdDoc w un em]) = _
    exact find?_append_first hpre3 hdoc1
  have h3 := get_user_by_id_db_hit (b := false) hoid hc3 hdb3
  exact ⟨hC, rfl, by rw [h3]; rfl⟩

/-- C3 as frozen is false at a concrete run: on the empty store,
`create_user` returns a user stamped at construction time
(`created_at = 0`, `updated_at = 1`), while `get_user_by_id` on the
returned id yields the stored record with the insert-time stamps
(`created_at = updated_at = 2`): `username`, `email`, id and `isDeleted`
agree, the timestamps do not. -/
theorem C3_counterexample :
    ∃ u r,
      (create_user World.empty data0).1 = .ok u ∧
      (get_user_by_id (create_user World.empty data0).2 oid0 false).1 = .ok r ∧
      u.username = r.username ∧ u.email = r.email ∧ u._id = r._id ∧
      r.isDeleted = false ∧
      u.created_at ≠ r.created_at ∧ u.updated_at ≠ r.updated_at := by
  refine ⟨{ username := Val.vstr "alice", email := "alice@example.com", created_at := 0,
            updated_at := 1, _id := some oid0, isDeleted := false },
          { username := Val.vstr "alice", email := "alice@example.com", created_at := 2,
            updated_at := 2, _id := some oid0, isDeleted := false },
          ?_, ?_, ?_, ?_, ?_, ?_, ?_, ?_⟩ <;> decide

theorem C3_witness :
    create_user World.empty data0 =
      (.ok { username := Val.vstr "alice", email := "alice@example.com", created_at := 0,
             updated_at := 1, _id := some oid0, isDeleted := false },
       createdWorld World.empty (Val.vstr "alice") "alice@example.com") ∧
    (createdWorld World.empty (Val.vstr "alice") "alice@example.com").docs =
      World.empty.docs ++ [createdDoc World.empty (Val.vstr "alice") "alice@example.com"] ∧
    (get_user_by_id (createdWorld World.empty (Val.vstr "alice") "alice@example.com")
        oid0 false).1 =
      .ok { username := Val.vstr "alice", email := "alice@example.com", created_at := 2,
            updated_at := 2, _id := some oid0, isDeleted := false } :=
  C3_create_then_get World.empty (Val.vstr "alice") "alice@example.com"
    (by decide) (by decide) (by decide) (by decide) (by decide)
    (by intro x hx; simp [World.empty] at hx)

/-- C4: `delete_user` and `restore_user`: absent id gives 404 from an
unconditional lookup; wrong flag state gives 400; otherwise the flag is
flipped in place with `updated_at` bumped to the current stamp, the record
staying in the collection; `restore_user` returns the refreshed record
re-read with `include_deleted = true`. -/
theorem C4_delete_restore_transitions (w : World) (uid : String) (d : Doc)
    (huid : oidValid uid = true) :
    (db_find_one w { q_id := some (oidNorm uid) } = none →
      delete_user w uid = (.error ⟨"User with this ID does not exist", 404⟩, w) ∧
      restore_user w uid = (.error ⟨"User with this ID does not exist", 404⟩, w)) ∧
    (db_find_one w { q_id := some (oidNorm uid) } = some d → d.isDeleted = true →
      delete_user w uid = (.error ⟨"User is already deleted", 400⟩, w)) ∧
    (db_find_one w { q_id := some (oidNorm uid) } = some d → d.isDeleted = false →
      restore_user w uid = (.error ⟨"User is not deleted", 400⟩, w)) ∧
    (db_find_one w { q_id := some (oidNorm uid) } = some d → d.isDeleted = false →
      ∃ pre post,
        w.docs = pre ++ d :: post ∧
        (delete_user w uid).1 = .ok () ∧
        (delete_user w uid).2.docs =
          pre ++ ({ d with isDeleted := true, updated_at := w.clock + 1 } : Doc) :: post) ∧
    (db_find_one w { q_id := some (oidNorm uid) } = some d → d.isDeleted = true →
      ∃ pre post,
        w.docs = pre ++ d :: post ∧
        (restore_user w uid).1 =
          .ok (User.from_dict ({ d with isDeleted := false, updated_at := w.clock + 1 } : Doc)) ∧
        (restore_user w uid).2.docs =
          pre ++ ({ d with isDeleted := false, updated_at := w.clock + 1 } : Doc) :: post) := by
  refine ⟨?_, ?_, ?_, ?_, ?_⟩
  · intro h
    constructor
    · simp only [delete_user, huid, if_true, h]
    · simp only [restore_user, huid, if_true, h]
  · intro h hdel
    simp only [delete_user, huid, if_true, h, hdel, if_true]
  · intro h hdel
    simp only [restore_user, huid, if_true, h, hdel, Bool.not_false, if_true]
  · intro h hdel
    have h' : w.docs.find? (fun x => x.matches { q_id := some (oidNorm uid) }) = some d := h
    obtain ⟨pre, post, hw, hpre⟩ := find?_split h'
    have hd1 : d.matches { q_id := some (oidNorm uid) } = true := by
      simpa using List.find?_some h'
    have hd2 : d.matches { q_id := some (oidNorm uid), qisDeleted := some false } = true := by
      simp [Doc.matches] at hd1 ⊢
      simp [hd1, hdel]
    have hpre2 : ∀ x ∈ pre,
        x.matches { q_id := some (oidNorm uid), qisDeleted := some false } = false :=
      fun x hx => matches_id_strengthen (hpre x hx)
    have heq := db_update_one_eval (w := w.utcnow.2)
      (s := { s_isDeleted := some true, s_updated_at := some w.clock })
      (show (w.utcnow.2).docs = pre ++ d :: post from hw) hpre2 hd2
    have hne : (({ d with isDeleted := true, updated_at := w.clock + 1 } : Doc) == d) = false := by
      apply beq_eq_false_iff_ne.mpr
      intro hcontra
      have := congrArg Doc.isDeleted hcontra
      simp [hdel] at this
    refine ⟨pre, post, hw, ?_, ?_⟩ <;>
      simp only [delete_user, huid, if_true, h, hdel, Bool.false_eq_true, if_false,
        utcnow_fst, heq, Doc.applySet, Option.getD, hne, utcnow_snd_clock,
        invalidate_docs] <;>
      rfl
  · intro h hdel
    have h' : w.docs.find? (fun x => x.matches { q_id := some (oidNorm uid) }) = some d := h
    obtain ⟨pre, post, hw, hpre⟩ := find?_split h'
    have hd1 : d.matches { q_id := some (oidNorm uid) } = true := by
      simpa using List.find?_some h'
    have hd2 : d.matches { q_id := some (oidNorm uid), qisDeleted := some true } = true := by
      simp [Doc.matches] at hd1 ⊢
      simp [hd1, hdel]
    have hpre2 : ∀ x ∈ pre,
        x.matches { q_id := some (oidNorm uid), qisDeleted := some true } = false :=
      fun x hx => matches_id_strengthen (hpre x hx)
    have heq := db_update_one_eval (w := w.utcnow.2)
      (s := { s_isDeleted := some false, s_updated_at := some w.clock })
      (show (w.utcnow.2).docs = pre ++ d :: post from hw) hpre2 hd2
    have hne : (({ d with isDeleted := false, updated_at := w.clock + 1 } : Doc) == d) = false := by
      apply beq_eq_false_iff_ne.mpr
      intro hcontra
      have := congrArg Doc.isDeleted hcontra
      simp [hdel] at this
    have hd1' : ({ d with isDeleted := false, updated_at := w.clock + 1 } : Doc).matches
        { q_id := some (oidNorm uid) } = true := by
      simpa [Doc.matches] using hd1
    have h3 : get_user_by_id
        (invalidate_user_cache
          ({ w.utcnow.2 with
             clock := w.clock + 1 + 1,
             docs := pre ++ ({ d with isDeleted := false, updated_at := w.clock + 1 } : Doc) :: post }) uid)
        uid true =
        (.ok (User.from_dict ({ d with isDeleted := false, updated_at := w.clock + 1 } : Doc)), _) :=
      get_user_by_id_db_hit huid (cache_get_invalidate_self _ _)
        (by
          show List.find? _ _ = _
          exact find?_append_first hpre hd1')
    refine ⟨pre, post, hw, ?_, ?_⟩ <;>
      simp only [restore_user, huid, if_true, h, hdel, Bool.not_true, Bool.false_eq_true,
        if_false, utcnow_fst, heq, Doc.applySet, Option.getD, hne, utcnow_snd_clock, h3,
        invalidate_docs] <;>
      rfl

theorem C4_witness :
    (db_find_one wAct { q_id := some (oidNorm oid0) } = none →
      delete_user wAct oid0 = (.error ⟨"User with this ID does not exist", 404⟩, wAct) ∧
      restore_user wAct oid0 = (.error ⟨"User with this ID does not exist", 404⟩, wAct)) ∧
    (db_find_one wAct { q_id := some (oidNorm oid0) } = some dAlice → dAlice.isDeleted = true →
      delete_user wAct oid0 = (.error ⟨"User is already deleted", 400⟩, wAct)) ∧
    (db_find_one wAct { q_id := some (oidNorm oid0) } = some dAlice → dAlice.isDeleted = false →
      restore_user wAct oid0 = (.error ⟨"User is not deleted", 400⟩, wAct)) ∧
    (db_find_one wAct { q_id := some (oidNorm oid0) } = some dAlice → dAlice.isDeleted = false →
      ∃ pre post,
        wAct.docs = pre ++ dAlice :: post ∧
        (delete_user wAct oid0).1 = .ok () ∧
        (delete_user wAct oid0).2.docs =
          pre ++ ({ dAlice with isDeleted := true, updated_at := wAct.clock + 1 } : Doc) :: post) ∧
    (db_find_one wAct { q_id := some (oidNorm oid0) } = some dAlice → dAlice.isDeleted = true →
      ∃ pre post,
        wAct.docs = pre ++ dAlice :: post ∧
        (restore_user wAct oid0).1 =
          .ok (User.from_dict
            ({ dAlice with isDeleted := false, updated_at := wAct.clock + 1 } : Doc)) ∧
        (restore_user wAct oid0).2.docs =
          pre ++ ({ dAlice with isDeleted := false, updated_at := wAct.clock + 1 } : Doc) :: post) :=
  C4_delete_restore_transitions wAct oid0 dAlice (by decide)

/-- C5 as frozen is false: a no-op update (empty partial data) on an
existing non-deleted user succeeds — the stamped `updated_at` (here 6, at
clock 5) differs from the stored one (0), so `modified_count` is 1. -/
theorem C5_counterexample :
    (update_user wAct oid0 {}).1 =
      .ok { username := .vstr "alice", email := "a@b.co", created_at := 0,
            updated_at := 6, _id := some oid0, isDeleted := false } ∧
    (update_user wAct oid0 {}).1 ≠ .error ⟨"Failed to update user", 400⟩ := by
  decide

/-- C5 amended: when `update_one` is reached, `UpdateFailed` is raised
exactly when `modified_count` is zero; but a caller-level no-op update is
not such a case in general, because `updated_at` is stamped to the current
time, so the update succeeds whenever that stamp differs from the stored
`updated_at`, and fails only when they coincide. -/
theorem C5_noop_update_succeeds_when_clock_moved (w : World) (uid : String) (d : Doc)
    (huid : oidValid uid = true)
    (hc : cache_get w ("user:" ++ uid) = none)
    (hdb : db_find_one w { q_id := some (oidNorm uid), qisDeleted := some false } = some d) :
    ((update_user w uid {}).1 = .error ⟨"Failed to update user", 400⟩ ↔
      d.updated_at = w.clock + 1) ∧
    (d.updated_at ≠ w.clock + 1 →
      (update_user w uid {}).1 =
        .ok (User.from_dict { d with updated_at := w.clock + 1 })) := by
  have h1 : get_user_by_id w uid false =
      (.ok (User.from_dict d), cache_set w ("user:" ++ uid) (.cdoc d)) :=
    get_user_by_id_db_hit huid hc hdb
  have hdb' : w.docs.find?
      (fun x => x.matches { q_id := some (oidNorm uid), qisDeleted := some false }) = some d := hdb
  obtain ⟨pre, post, hw, hpre⟩ := find?_split hdb'
  have hd : d.matches { q_id := some (oidNorm uid), qisDeleted := some false } = true := by
    simpa using List.find?_some hdb'
  have heq := db_update_one_eval
    (w := (cache_set w ("user:" ++ uid) (.cdoc d)).utcnow.2)
    (s := { s_username := none, s_email := none, s_created_at := none,
            s_updated_at := some w.clock, s_isDeleted := none })
    (show ((cache_set w ("user:" ++ uid) (.cdoc d)).utcnow.2).docs = pre ++ d :: post from hw)
    hpre hd
  simp only [update_user, show validate_user_data {} true = none from rfl, h1, huid,
    if_true, utcnow_fst, cache_set_clock]
  rw [heq]
  simp only [utcnow_snd_clock, cache_set_clock, Doc.applySet, Option.getD]
  by_cases hB : ({ d with updated_at := w.clock + 1 } : Doc) = d
  · have hts : w.clock + 1 = d.updated_at := by
      have := congrArg Doc.updated_at hB
      simpa using this
    simp only [show ((⟨d._id, d.username, d.email, d.created_at, w.clock + 1,
        d.isDeleted⟩ : Doc) == d) = true from beq_iff_eq.mpr (by cases d; simpa using hB),
      if_true]
    constructor
    · simp [hts.symm]
    · intro hne
      exact absurd hts.symm hne
  · have hBb : ((⟨d._id, d.username, d.email, d.created_at, w.clock + 1,
        d.isDeleted⟩ : Doc) == d) = false :=
      beq_eq_false_iff_ne.mpr (by cases d; simpa using hB)
    simp only [hBb, Bool.false_eq_true, if_false]
    have hne : d.updated_at ≠ w.clock + 1 := by
      intro h
      exact hB (by cases d; simp_all)
    have hd' : ({ d with updated_at := w.clock + 1 } : Doc).matches
        { q_id := some (oidNorm uid), qisDeleted := some false } = true := by
      simpa [Doc.matches] using hd
    have h3 : get_user_by_id
        (invalidate_user_cache
          ({ (cache_set w ("user:" ++ uid) (.cdoc d)).utcnow.2 with
             clock := w.clock + 1 + 1,
             docs := pre ++ ({ d with updated_at := w.clock + 1 } : Doc) :: post }) uid)
        uid false =
        (.ok (User.from_dict ({ d with updated_at := w.clock + 1 } : Doc)), _) :=
      get_user_by_id_db_hit huid (cache_get_invalidate_self _ _)
        (by
          show List.find? _ _ = _
          exact find?_append_first hpre hd')
    rw [h3]
    constructor
    · simp [hne]
    · intro _
      rfl

theorem C5_witness :
    ((update_user wAct oid0 {}).1 = .error ⟨"Failed to update user", 400⟩ ↔
      dAlice.updated_at = wAct.clock + 1) ∧
    (dAlice.updated_at ≠ wAct.clock + 1 →
      (update_user wAct oid0 {}).1 =
        .ok (User.from_dict { dAlice with updated_at := wAct.clock + 1 })) :=
  C5_noop_update_succeeds_when_clock_moved wAct oid0 dAlice (by decide) (by decide) (by decide)

/-- C6: the cache adapter's `get` never raises — uninitialized client,
client failure and deserialization failure all come back as `none` — and
`set` never raises: uninitialized client, serialization failure and client
failure all come back as `false`, with `true` exactly when `setex` stored
the serialized value. -/
theorem C6_cache_adapter_never_raises
    (client : Option RedisClientOps) (c : RedisClientOps)
    (deser : String → Except Unit RVal) (ser : RVal → Except Unit String)
    (key : String) (v : RVal) (expire : Nat) :
    exceptOk (RedisCacheService.get client deser key) = true ∧
    RedisCacheService.get none deser key = .ok none ∧
    RedisCacheService.get (some c) deser key =
      .ok (match c.rget key with
           | .error _ => none
           | .ok none => none
           | .ok (some data) => (deser data).toOption) ∧
    exceptOk (RedisCacheService.set client ser key v expire) = true ∧
    RedisCacheService.set none ser key v expire = .ok false ∧
    (RedisCacheService.set (some c) ser key v expire = .ok true ↔
      ∃ sv, ser v = .ok sv ∧ c.rsetex key expire sv = .ok ()) := by
  refine ⟨?_, rfl, ?_, ?_, rfl, ?_⟩
  · cases client with
    | none => rfl
    | some c' =>
      cases h : c'.rget key with
      | error e => simp [RedisCacheService.get, h, exceptOk]
      | ok o =>
        cases o with
        | none => simp [RedisCacheService.get, h, exceptOk]
        | some data => cases hd : deser data <;> simp [RedisCacheService.get, h, hd, exceptOk]
  · cases h : c.rget key with
    | error e => simp [RedisCacheService.get, h]
    | ok o =>
      cases o with
      | none => simp [RedisCacheService.get, h]
      | some data => cases hd : deser data <;> simp [RedisCacheService.get, h, hd, Except.toOption]
  · cases client with
    | none => rfl
    | some c' =>
      cases hs : ser v with
      | error e => simp [RedisCacheService.set, hs, exceptOk]
      | ok sv => cases hx : c'.rsetex key expire sv <;> simp [RedisCacheService.set, hs, hx, exceptOk]
  · constructor
    · intro h
      cases hs : ser v with
      | error e => simp [RedisCacheService.set, hs] at h
      | ok sv =>
        cases hx : c.rsetex key expire sv with
        | error e => simp [RedisCacheService.set, hs, hx] at h
        | ok u => exact ⟨sv, rfl, by simpa using hx⟩
    · rintro ⟨sv, hs, hx⟩
      simp [RedisCacheService.set, hs, hx]

/-- C7 as frozen is false: `update_user` passes a caller-supplied
`created_at` straight into `$set` (only `updated_at` is overridden), so an
update carrying `created_at` drives the stored record to
`updated_at < created_at` — reachable by service calls alone. -/
theorem C7_counterexample :
    Relation.ReflTransGen Step World.empty wBad ∧
    wBad.docs.any (fun d => decide (d.updated_at < d.created_at)) = true :=
  ⟨Relation.ReflTransGen.tail (Relation.ReflTransGen.single (Step.create World.empty data0))
     (Step.update (create_user World.empty data0).2 oid0 { created_at := some 999 }),
   by decide⟩

/-- C7 amended: along any history of service calls from the empty store in
which no update data carries a `created_at` key, every stored record
satisfies `created_at ≤ updated_at`. -/
theorem C7_updated_at_ge_created_at (w : World)
    (h : Relation.ReflTransGen StepTame World.empty w) :
    ∀ d ∈ w.docs, d.created_at ≤ d.updated_at := by
  have hOk : DocsOk w := by
    induction h with
    | refl => intro d hd; simp [World.empty] at hd
    | tail hab hbc ih => exact StepTame_DocsOk hbc ih
  exact fun d hd => (hOk d hd).1

theorem C7_witness :
    (createdDoc World.empty (Val.vstr "alice") "alice@example.com").created_at ≤
      (createdDoc World.empty (Val.vstr "alice") "alice@example.com").updated_at :=
  C7_updated_at_ge_created_at (create_user World.empty data0).2
    (Relation.ReflTransGen.single (StepTame.create World.empty data0))
    (createdDoc World.empty (Val.vstr "alice") "alice@example.com")
    (by decide)

/-- C8 as frozen is false: when `is_update = false` and a key is missing,
the missing-fields check fires first, so data containing a malformed email
but no username fails with the missing-fields error, not `InvalidEmail`. -/
theorem C8_counterexample :
    validate_email "not-an-email" = false ∧
    validate_user_data { email := some "not-an-email" } false =
      some ⟨"Missing required fields: username and email", 400⟩ ∧
    validate_user_data { email := some "not-an-email" } false ≠
      some ⟨"Invalid email format", 400⟩ := by
  decide

/-- C8 amended: `validate_user_data` passes exactly when the presence check
(create only), the email format check and the username format check all
hold; the checks fire in that order, and the first failing one determines
the error. -/
theorem C8_validation_characterized (data : UData) (is_update : Bool) :
    (validate_user_data data is_update = none ↔
      ((is_update || requiredPresent data) && emailFieldOk data && usernameFieldOk data) = true) ∧
    ((!is_update && !requiredPresent data) = true →
      validate_user_data data is_update = some ⟨"Missing required fields: username and email", 400⟩) ∧
    ((is_update || requiredPresent data) = true → emailFieldOk data = false →
      validate_user_data data is_update = some ⟨"Invalid email format", 400⟩) ∧
    ((is_update || requiredPresent data) = true → emailFieldOk data = true →
      usernameFieldOk data = false →
      validate_user_data data is_update =
        some ⟨"Username must be a string with at least 3 characters", 400⟩) := by
  obtain ⟨u, e, c, up⟩ := data
  cases u with
  | none =>
    cases e with
    | none =>
      cases is_update <;>
        simp [validate_user_data, requiredPresent, emailFieldOk, usernameFieldOk]
    | some ev =>
      cases is_update <;> cases hve : validate_email ev <;>
        simp [validate_user_data, requiredPresent, emailFieldOk, usernameFieldOk, hve]
  | some uv =>
    cases e with
    | none =>
      cases is_update <;> cases hvu : usernameOk uv <;>
        simp [validate_user_data, requiredPresent, emailFieldOk, usernameFieldOk, hvu]
    | some ev =>
      cases is_update <;> cases hve : validate_email ev <;> cases hvu : usernameOk uv <;>
        simp [validate_user_data, requiredPresent, emailFieldOk, usernameFieldOk, hve, hvu]

/-- C9 as frozen is false: a valid but upper-case hex `_id` is accepted by
`ObjectId` yet comes back lower-cased from the round trip, so the rebuilt
`User` differs from the original. -/
theorem C9_counterexample :
    oidValid "ABCDEF0123456789ABCDEF01" = true ∧
    (User.to_dict uUp "x").map User.from_dict =
      .ok { uUp with _id := some "abcdef0123456789abcdef01" } ∧
    (User.to_dict uUp "x").map User.from_dict ≠ .ok uUp := by
  decide

/-- C9 amended: for a `User` whose `_id` parses as an ObjectId, the
`to_dict`/`from_dict` round trip preserves every field except that `_id`
is normalized to lowercase hex; it is the identity exactly on already
lower-case ids. -/
theorem C9_roundtrip_normalizes_id (u : User) (s fresh : String)
    (hid : u._id = some s) (hval : oidValid s = true) :
    (User.to_dict u fresh).map User.from_dict = .ok { u with _id := some (oidNorm s) } ∧
    (oidNorm s = s → (User.to_dict u fresh).map User.from_dict = .ok u) := by
  obtain ⟨un, em, ca, ua, oid, del⟩ := u
  simp only [User._id] at hid
  subst hid
  constructor
  · simp [User.to_dict, hval, User.from_dict, Except.map]
  · intro hnorm
    simp [User.to_dict, hval, User.from_dict, Except.map, hnorm]

theorem C9_witness :
    (User.to_dict uLow "x").map User.from_dict =
      .ok { uLow with _id := some (oidNorm "abcdef0123456789abcdef01") } ∧
    (oidNorm "abcdef0123456789abcdef01" = "abcdef0123456789abcdef01" →
      (User.to_dict uLow "x").map User.from_dict = .ok uLow) :=
  C9_roundtrip_normalizes_id uLow "abcdef0123456789abcdef01" "x" rfl (by decide)

/-- C10: with no matching users, `get_all_users` returns the empty list
and caches the empty list; but a cached empty list is falsy in
`if cached_users:`, so a later call finds the cached `[]` and still goes
back to the store (`fromCache = false`), recomputing from `db_find` and
re-caching — an empty result never short-circuits from cache. -/
theorem C10_empty_list_never_served_from_cache (w : World) (b : Bool) :
    (cache_get w ("user:all:" ++ (if b then "with_deleted" else "active")) = none →
      db_find w (if b then {} else { qisDeleted := some false }) = [] →
      get_all_users w b =
        ⟨.ok [], cache_set w ("user:all:" ++ (if b then "with_deleted" else "active"))
          (.clist []), false⟩) ∧
    (cache_get w ("user:all:" ++ (if b then "with_deleted" else "active")) = some (.clist []) →
      get_all_users w b =
        ⟨.ok ((db_find w (if b then {} else { qisDeleted := some false })).map User.from_dict),
         cache_set w ("user:all:" ++ (if b then "with_deleted" else "active"))
           (.clist (db_find w (if b then {} else { qisDeleted := some false }))), false⟩) := by
  constructor
  · intro h1 h2
    simp only [get_all_users, h1, h2, List.map_nil]
  · intro h1
    simp only [get_all_users, h1, List.isEmpty_nil, if_true]

end S2P
